import Mathlib

/-!
# Delfos ETL pipeline — shallow embedding and verification

This file embeds the Delfos ETL pipeline (source reader filter, windowed
aggregator, long-form normalizer, signal resolver, batched loader, partition
orchestrators, and target-store provisioning) as executable Lean definitions,
translated from the Python sources:

* `src/api/app/database.py` — `get_data_with_filters` (time-range filter);
* `src/etl/etl_process.py` — `ETLProcessor.transform_data`,
  `ETLProcessor.load_data`, `ETLProcessor.process_date`, and `main`;
* `src/dagster/assets.py` — the `processed_sensor_data` asset;
* `src/etl/prepare_alvo_db.py` — `insert_initial_signals`.

Modelling conventions:

* Timestamps are seconds since the epoch (`Nat`); the pandas rule
  `resample("10T")` buckets a timestamp into the 10-minute (600 s) interval
  anchored at absolute time, i.e. key `t / 600`.
* Sensor values are rationals (`ℚ`).  Missing values (SQL `NULL` / pandas
  `NaN`) are `Option.none`; pandas `mean`/`min`/`max`/`std` skip missing
  values, `std` uses `ddof = 1` and is missing for fewer than two samples.
  The numeric payload of the `std` statistic is embedded as the sample
  variance Σ(x−x̄)²/(n−1); the source takes its square root, a strictly
  monotone injection, so definedness, equality of outputs, and
  order-invariance are preserved exactly by this representation.
* Database effects (HTTP extraction, the registry `SELECT`, the batched
  `INSERT`) are passed in explicitly: fallible stages are `Except String`
  values and a possible insert fault is an `Option String`.
-/

namespace Delfos

/-- The two configured metrics extracted from the source
(`variables=timestamp,wind_speed,power` in `extract_data`). -/
inductive Metric
| wind_speed
| power
deriving DecidableEq

/-- One raw input row as returned by the source reader: a timestamp plus one
optional value per extracted metric column. -/
structure RawRow where
  timestamp : Nat
  wind_speed : Option ℚ
  power : Option ℚ
deriving DecidableEq

/-- Column projection of a raw row for one metric. -/
def metricCol : Metric → RawRow → Option ℚ
| .wind_speed, r => r.wind_speed
| .power, r => r.power

/-- Aggregation interval width: 10 minutes, in seconds (`resample("10T")`). -/
def bucketWidth : Nat := 600

/-- Bucket key of a timestamp: `resample` assigns a sample to the fixed
absolute 10-minute interval containing it. -/
def bucketKey (t : Nat) : Nat := t / bucketWidth

/-- The (present, in input order) values of metric `m` falling in bucket `k` —
what pandas aggregates for one cell of the resampled frame. -/
def metricVals (df : List RawRow) (k : Nat) (m : Metric) : List ℚ :=
  df.filterMap (fun r => if bucketKey r.timestamp = k then metricCol m r else none)

/-- The four per-metric statistics of one bucket, each missing (`none`) when
pandas would produce `NaN`. -/
structure StatRec where
  mean : Option ℚ
  min : Option ℚ
  max : Option ℚ
  std : Option ℚ
deriving DecidableEq

/-- pandas column mean over the present values (`NaN` on an empty cell). -/
def listMean (vs : List ℚ) : Option ℚ :=
  if vs = [] then none else some (vs.sum / vs.length)

/-- Numeric payload of the `std` statistic: the `ddof = 1` sample variance
Σ(x−x̄)²/(n−1) (the source stores its square root; see the file header). -/
def sampleVar (vs : List ℚ) : ℚ :=
  ((vs.map (fun x => (x - vs.sum / vs.length) ^ 2)).sum) / ((vs.length : ℚ) - 1)

/-- `agg(["mean", "min", "max", "std"])` on the values of one bucket cell. -/
def computeStats (vs : List ℚ) : StatRec :=
  { mean := listMean vs
    min := vs.min?
    max := vs.max?
    std := if 2 ≤ vs.length then some (sampleVar vs) else none }

/-- One row of the wide aggregated frame: the bucket-start instant plus the
four statistics for each metric (columns `wind_speed_mean`, …, `power_std`). -/
structure BucketRow where
  bucket_start : Nat
  wind_speed : StatRec
  power : StatRec
deriving DecidableEq

/-- Statistic block of a bucket row for one metric. -/
def statsOf (br : BucketRow) : Metric → StatRec
| .wind_speed => br.wind_speed
| .power => br.power

/-- The aggregated row for bucket `k` of the input frame. -/
def bucketRowOf (df : List RawRow) (k : Nat) : BucketRow :=
  { bucket_start := bucketWidth * k
    wind_speed := computeStats (metricVals df k .wind_speed)
    power := computeStats (metricVals df k .power) }

/-- The set of bucket keys hit by at least one input row (after `resample`
plus `dropna(how="all")`, only these can survive; wholly empty interior
buckets carry `NaN` in every column and are dropped). -/
def keysOf (df : List RawRow) : Finset Nat :=
  (df.map (fun r => bucketKey r.timestamp)).toFinset

/-- `dropna(how="all")` criterion on one metric block. -/
def allStatsNone (s : StatRec) : Bool :=
  s.mean.isNone && s.min.isNone && s.max.isNone && s.std.isNone

/-- `dropna(how="all")` criterion on a full aggregated row. -/
def rowAllNone (br : BucketRow) : Bool :=
  allStatsNone br.wind_speed && allStatsNone br.power

/-- The aggregated wide frame produced in `transform_data`: one row per hit
bucket, in ascending time order, with all-`NaN` rows dropped. -/
def aggregRows (df : List RawRow) : List BucketRow :=
  ((((keysOf df).sort (· ≤ ·)).map (bucketRowOf df)).filter (fun br => !(rowAllNone br)))

/-- One row of the long (melted) frame: `(timestamp, signal_name, value)`. -/
structure NormalizedRow where
  timestamp : Nat
  signal_name : String
  value : ℚ
deriving DecidableEq

/-- The eight wide columns, in the order `pd.concat` lays them out and
`melt` stacks them, with their signal names. -/
def meltColumns : List (String × (BucketRow → Option ℚ)) :=
  [("wind_speed_mean", fun br => br.wind_speed.mean),
   ("wind_speed_min", fun br => br.wind_speed.min),
   ("wind_speed_max", fun br => br.wind_speed.max),
   ("wind_speed_std", fun br => br.wind_speed.std),
   ("power_mean", fun br => br.power.mean),
   ("power_min", fun br => br.power.min),
   ("power_max", fun br => br.power.max),
   ("power_std", fun br => br.power.std)]

/-- `melt` to long form followed by `dropna()`: column by column, one row per
defined statistic. -/
def meltDropna (rows : List BucketRow) : List NormalizedRow :=
  meltColumns.flatMap
    (fun c => rows.filterMap
      (fun br => (c.2 br).map (fun v => ⟨br.bucket_start, c.1, v⟩)))

/-- `ETLProcessor.transform_data`: aggregate into 10-minute buckets and melt
to long form (an empty input frame short-circuits to an empty output). -/
def transform_data (df : List RawRow) : List NormalizedRow :=
  meltDropna (aggregRows df)

/-- The signal registry snapshot: the rows of `SELECT id, name FROM signal`,
as `(name, id)` pairs (the `signal.name` column carries a uniqueness
constraint, so names occur at most once). -/
def SignalRegistry : Type := List (String × Nat)

/-- Dict lookup `signal_mapping[name]` built from the registry rows. -/
def lookupSignal (reg : SignalRegistry) (n : String) : Option Nat :=
  ((reg : List (String × Nat)).find? (fun p => p.1 = n)).map (fun p => p.2)

/-- One row of the target fact table as the loader writes it. -/
structure LoadRecord where
  timestamp : Nat
  signal_id : Nat
  value : ℚ
deriving DecidableEq

/-- Signal resolution in `load_data`: `map` the registry dict over
`signal_name` and `dropna(subset=["signal_id"])` — unresolved rows drop. -/
def resolveRows (reg : SignalRegistry) (rows : List NormalizedRow) : List LoadRecord :=
  rows.filterMap
    (fun r => (lookupSignal reg r.signal_name).map (fun i => ⟨r.timestamp, i, r.value⟩))

/-- Split a list into consecutive chunks of `B` elements (the last chunk may
be shorter): the batches `to_sql(..., chunksize=B)` issues.  Degenerate
`B = 0` yields no chunks; the loader always calls this with `B = 1000`. -/
def chunksOf (B : Nat) (l : List LoadRecord) : List (List LoadRecord) :=
  if h : B = 0 ∨ l = [] then []
  else l.take B :: chunksOf B (l.drop B)
termination_by l.length
decreasing_by
  push_neg at h
  have hB : 0 < B := Nat.pos_of_ne_zero h.1
  have hl : 0 < l.length := List.length_pos.mpr h.2
  simpa using Nat.sub_lt hl hB

/-- The loader's configured batch size (`chunksize=1000`). -/
def batchSize : Nat := 1000

/-- `ETLProcessor.load_data`: empty frames short-circuit to 0; otherwise the
registry is fetched (`regRes`, which may fault), rows are resolved, a wholly
unresolved frame returns 0, and otherwise the batched insert runs (`insertFault`
models a target-store fault) and reports the total row count written. -/
def load_data (regRes : Except String SignalRegistry) (insertFault : Option String)
    (df : List NormalizedRow) : Except String Nat :=
  if df = [] then .ok 0
  else
    match regRes with
    | .error e => .error e
    | .ok reg =>
      let resolved := resolveRows reg df
      if resolved = [] then .ok 0
      else
        match insertFault with
        | some e => .error e
        | none => .ok (((chunksOf batchSize resolved).map List.length).sum)

/-- Partition status values. -/
inductive Status
| success
| no_data
| no_valid_data
| error
deriving DecidableEq

/-- The structured result a partition run returns (the Python result dict;
fields absent from a given dict are 0 / `none` here). -/
structure PartitionResult where
  status : Status
  records_processed : Nat
  records_inserted : Nat
  intervals_processed : Nat
  error_detail : Option String
deriving DecidableEq

/-- `ETLProcessor.process_date`: extract (may fault), return `no_data` on an
empty extraction, otherwise transform, load, and report; every fault is
caught and becomes a `status = error` result with the fault description. -/
def process_date (extractRes : Except String (List RawRow))
    (regRes : Except String SignalRegistry) (insertFault : Option String) :
    PartitionResult :=
  match extractRes with
  | .error e => ⟨.error, 0, 0, 0, some e⟩
  | .ok raw =>
    if raw = [] then ⟨.no_data, 0, 0, 0, none⟩
    else
      let long := transform_data raw
      match load_data regRes insertFault long with
      | .error e => ⟨.error, 0, 0, 0, some e⟩
      | .ok n => ⟨.success, raw.length, n, long.length / 8, none⟩

/-- The Dagster asset `processed_sensor_data` (src/dagster/assets.py): same
stages inline, but an empty resolved frame yields `no_valid_data`, and the
success result reports `intervals_processed = len(aggregated_df)`. -/
def processed_sensor_data (extractRes : Except String (List RawRow))
    (regRes : Except String SignalRegistry) (insertFault : Option String) :
    PartitionResult :=
  match extractRes with
  | .error e => ⟨.error, 0, 0, 0, some e⟩
  | .ok raw =>
    if raw = [] then ⟨.no_data, 0, 0, 0, none⟩
    else
      let aggregated := aggregRows raw
      let long := meltDropna aggregated
      match regRes with
      | .error e => ⟨.error, 0, 0, 0, some e⟩
      | .ok reg =>
        let resolved := resolveRows reg long
        if resolved = [] then ⟨.no_valid_data, raw.length, 0, 0, none⟩
        else
          match insertFault with
          | some e => ⟨.error, 0, 0, 0, some e⟩
          | none =>
            ⟨.success, raw.length,
              ((chunksOf batchSize resolved).map List.length).sum,
              aggregated.length, none⟩

/-- Exit code of the CLI entry point `etl_process.main`:
`sys.exit(0 if result.status in ["success", "no_data"] else 1)`. -/
def mainExitCode (r : PartitionResult) : Nat :=
  if r.status = .success ∨ r.status = .no_data then 0 else 1

/-- One row of the target `signal` definition table (ids are
auto-generated; identity is the unique `name`). -/
structure SignalDef where
  name : String
  description : String
deriving DecidableEq

/-- The eight seed signals `insert_initial_signals` provisions. -/
def initialSignals : List SignalDef :=
  [⟨"wind_speed_mean", "Média da velocidade do vento em intervalos de 10 minutos"⟩,
   ⟨"wind_speed_min", "Mínimo da velocidade do vento em intervalos de 10 minutos"⟩,
   ⟨"wind_speed_max", "Máximo da velocidade do vento em intervalos de 10 minutos"⟩,
   ⟨"wind_speed_std", "Desvio padrão da velocidade do vento em intervalos de 10 minutos"⟩,
   ⟨"power_mean", "Média da potência em intervalos de 10 minutos"⟩,
   ⟨"power_min", "Mínimo da potência em intervalos de 10 minutos"⟩,
   ⟨"power_max", "Máximo da potência em intervalos de 10 minutos"⟩,
   ⟨"power_std", "Desvio padrão da potência em intervalos de 10 minutos"⟩]

/-- `insert_initial_signals` (src/etl/prepare_alvo_db.py) as a transition on
the `signal` table state: when the table already has rows it inserts nothing
and returns; otherwise it appends the eight seed signals. -/
def insert_initial_signals (table : List SignalDef) : List SignalDef :=
  if 0 < table.length then table else table ++ initialSignals

/-- One row of the source (`fonte`) `data` table read by the API. -/
structure FonteRow where
  timestamp : Nat
  wind_speed : Option ℚ
  power : Option ℚ
  ambient_temprature : Option ℚ
deriving DecidableEq

/-- The time-range predicate of `get_data_with_filters`
(src/api/app/database.py): `timestamp >= start` and `timestamp <= end`, each
only when the bound is given. -/
def inRange (start_date end_date : Option Nat) (r : FonteRow) : Bool :=
  (match start_date with
   | some s => s ≤ r.timestamp
   | none => true) &&
  (match end_date with
   | some e => r.timestamp ≤ e
   | none => true)

/-- `DatabaseConnection.get_data_with_filters` restricted to its row
selection: keep the rows satisfying the time filters, ordered by timestamp
(`ORDER BY timestamp`).  The `variables` column projection is orthogonal to
the row selection and is not modelled. -/
def get_data_with_filters (start_date end_date : Option Nat)
    (table : List FonteRow) : List FonteRow :=
  (table.filter (inRange start_date end_date)).mergeSort
    (fun a b => a.timestamp ≤ b.timestamp)

/-- The half-open day window `extract_data` requests for a partition day
`d` (days since the epoch): start at midnight, end at the next midnight. -/
def extractWindow (d : Nat) : Nat × Nat := (86400 * d, 86400 * d + 86400)

/-- The number of 10-minute intervals holding at least one present sample of
some metric — the spec-level count of non-empty buckets. -/
def nonemptyBucketCount (df : List RawRow) : Nat :=
  ((df.filter (fun r => r.wind_speed.isSome || r.power.isSome)).map
    (fun r => bucketKey r.timestamp)).toFinset.card

/-- The signal name of a metric's standard-deviation statistic as the
pipeline generates it. -/
def stdSignalName : Metric → String
| .wind_speed => "wind_speed_std"
| .power => "power_std"

/-- The set of signal names appearing in the transformed output. -/
def signalNames (df : List RawRow) : Finset String :=
  ((transform_data df).map (fun r => r.signal_name)).toFinset

/-- All signal names the pipeline can generate: the eight melt columns. -/
def allSignalNames : Finset String :=
  (meltColumns.map (fun c => c.1)).toFinset

/-- A registry snapshot holding exactly the eight provisioned signals, with
ids 1..8 in seed order (what `load_signal_mapping` reads back after
`insert_initial_signals` ran on an empty table). -/
def seedRegistry : SignalRegistry :=
  [("wind_speed_mean", 1), ("wind_speed_min", 2), ("wind_speed_max", 3),
   ("wind_speed_std", 4), ("power_mean", 5), ("power_min", 6),
   ("power_max", 7), ("power_std", 8)]

instance : Std.Antisymm (fun a b : ℚ => a ≤ b) :=
  ⟨fun h h' => le_antisymm h h'⟩

/-! ## Helper lemmas -/

theorem min?_perm {l l' : List ℚ} (p : l.Perm l') : l.min? = l'.min? := by
  cases h : l.min? with
  | none =>
    rw [List.min?_eq_none_iff] at h
    subst h
    rw [← p.nil_eq, List.min?_nil]
  | some a =>
    rw [List.min?_eq_some_iff (fun a => le_refl a) (fun a b => min_choice a b)
      (fun a b c => le_min_iff)] at h
    symm
    rw [List.min?_eq_some_iff (fun a => le_refl a) (fun a b => min_choice a b)
      (fun a b c => le_min_iff)]
    exact ⟨p.mem_iff.mp h.1, fun b hb => h.2 b (p.mem_iff.mpr hb)⟩

theorem max?_perm {l l' : List ℚ} (p : l.Perm l') : l.max? = l'.max? := by
  cases h : l.max? with
  | none =>
    rw [List.max?_eq_none_iff] at h
    subst h
    rw [← p.nil_eq, List.max?_nil]
  | some a =>
    rw [List.max?_eq_some_iff (fun a => le_refl a) (fun a b => max_choice a b)
      (fun a b c => max_le_iff)] at h
    symm
    rw [List.max?_eq_some_iff (fun a => le_refl a) (fun a b => max_choice a b)
      (fun a b c => max_le_iff)]
    exact ⟨p.mem_iff.mp h.1, fun b hb => h.2 b (p.mem_iff.mpr hb)⟩

theorem listMean_perm {l l' : List ℚ} (p : l.Perm l') : listMean l = listMean l' := by
  unfold listMean
  by_cases h : l = []
  · subst h
    rw [← p.nil_eq]
  · have h' : l' ≠ [] := fun e => h (by subst e; exact p.eq_nil)
    simp only [h, h', if_false, p.sum_eq, p.length_eq]

theorem sampleVar_perm {l l' : List ℚ} (p : l.Perm l') : sampleVar l = sampleVar l' := by
  unfold sampleVar
  rw [p.sum_eq, p.length_eq, (p.map _).sum_eq]

theorem computeStats_perm {l l' : List ℚ} (p : l.Perm l') :
    computeStats l = computeStats l' := by
  unfold computeStats
  rw [listMean_perm p, min?_perm p, max?_perm p, sampleVar_perm p, p.length_eq]

theorem metricVals_perm {df df' : List RawRow} (p : df.Perm df') (k : Nat) (m : Metric) :
    (metricVals df k m).Perm (metricVals df' k m) :=
  p.filterMap _

theorem keysOf_perm {df df' : List RawRow} (p : df.Perm df') : keysOf df = keysOf df' := by
  unfold keysOf
  ext a
  simp [List.mem_toFinset, (p.map _).mem_iff]

theorem bucketRowOf_perm {df df' : List RawRow} (p : df.Perm df') (k : Nat) :
    bucketRowOf df k = bucketRowOf df' k := by
  unfold bucketRowOf
  rw [computeStats_perm (metricVals_perm p k .wind_speed),
    computeStats_perm (metricVals_perm p k .power)]

theorem aggregRows_perm {df df' : List RawRow} (p : df.Perm df') :
    aggregRows df = aggregRows df' := by
  unfold aggregRows
  rw [keysOf_perm p]
  congr 1
  exact List.map_congr_left (fun k _ => bucketRowOf_perm p k)

theorem mem_keysOf {df : List RawRow} {k : Nat} :
    k ∈ keysOf df ↔ ∃ r ∈ df, bucketKey r.timestamp = k := by
  simp [keysOf]

theorem mem_aggregRows {df : List RawRow} {br : BucketRow} :
    br ∈ aggregRows df ↔
      ∃ k ∈ keysOf df, bucketRowOf df k = br ∧ rowAllNone br = false := by
  unfold aggregRows
  simp only [List.mem_filter, List.mem_map, Finset.mem_sort, Bool.not_eq_true']
  constructor
  · rintro ⟨⟨k, hk, hbr⟩, hnone⟩
    exact ⟨k, hk, hbr, hnone⟩
  · rintro ⟨k, hk, hbr, hnone⟩
    exact ⟨⟨k, hk, hbr⟩, hnone⟩

theorem allStatsNone_computeStats (vs : List ℚ) :
    allStatsNone (computeStats vs) = true ↔ vs = [] := by
  cases vs with
  | nil => simp [allStatsNone, computeStats, listMean]
  | cons x xs => simp [allStatsNone, computeStats, listMean]

theorem rowAllNone_bucketRowOf (df : List RawRow) (k : Nat) :
    rowAllNone (bucketRowOf df k) = false ↔
      metricVals df k .wind_speed ≠ [] ∨ metricVals df k .power ≠ [] := by
  unfold rowAllNone bucketRowOf
  rw [Bool.and_eq_false_iff]
  rw [← Bool.not_eq_true, ← Bool.not_eq_true]
  rw [allStatsNone_computeStats, allStatsNone_computeStats]

theorem metricVals_ne_nil {df : List RawRow} {k : Nat} {m : Metric} :
    metricVals df k m ≠ [] ↔
      ∃ r ∈ df, bucketKey r.timestamp = k ∧ (metricCol m r).isSome = true := by
  unfold metricVals
  rw [Ne, List.filterMap_eq_nil_iff]
  push_neg
  constructor
  · rintro ⟨r, hr, hne⟩
    refine ⟨r, hr, ?_⟩
    by_cases hk : bucketKey r.timestamp = k
    · refine ⟨hk, ?_⟩
      rw [if_pos hk] at hne
      exact Option.ne_none_iff_isSome.mp hne
    · exact absurd (if_neg hk) hne
  · rintro ⟨r, hr, hk, hsome⟩
    refine ⟨r, hr, ?_⟩
    rw [if_pos hk]
    exact Option.ne_none_iff_isSome.mpr hsome

theorem aggregRows_length (df : List RawRow) :
    (aggregRows df).length = nonemptyBucketCount df := by
  unfold aggregRows nonemptyBucketCount
  rw [List.filter_map, List.length_map]
  set q : Nat → Bool := (fun br => !rowAllNone br) ∘ bucketRowOf df with hq
  have hnd : (((keysOf df).sort (· ≤ ·)).filter q).Nodup :=
    (Finset.sort_nodup _ _).filter q
  rw [← List.toFinset_card_of_nodup hnd]
  congr 1
  ext a
  simp only [List.mem_toFinset, List.mem_filter, Finset.mem_sort, List.mem_map]
  constructor
  · rintro ⟨hk, hqa⟩
    have := (rowAllNone_bucketRowOf df a).mp (by simpa [hq] using hqa)
    rcases this with h | h
    · rcases metricVals_ne_nil.mp h with ⟨r, hr, hka, hs⟩
      simp only [metricCol] at hs
      exact ⟨r, ⟨hr, by simp [hs]⟩, hka⟩
    · rcases metricVals_ne_nil.mp h with ⟨r, hr, hka, hs⟩
      simp only [metricCol] at hs
      exact ⟨r, ⟨hr, by simp [hs]⟩, hka⟩
  · rintro ⟨r, ⟨hrdf, hsome⟩, hka⟩
    have hk : a ∈ keysOf df := mem_keysOf.mpr ⟨r, hrdf, hka⟩
    refine ⟨hk, ?_⟩
    simp only [hq, Function.comp_apply, Bool.not_eq_true']
    rw [rowAllNone_bucketRowOf df a]
    rw [Bool.or_eq_true] at hsome
    rcases hsome with h | h
    · exact Or.inl (metricVals_ne_nil.mpr ⟨r, hrdf, hka, by simpa [metricCol] using h⟩)
    · exact Or.inr (metricVals_ne_nil.mpr ⟨r, hrdf, hka, by simpa [metricCol] using h⟩)

theorem mem_meltDropna {rows : List BucketRow} {r : NormalizedRow} :
    r ∈ meltDropna rows ↔
      ∃ c ∈ meltColumns, ∃ br ∈ rows,
        c.2 br = some r.value ∧ r = ⟨br.bucket_start, c.1, r.value⟩ := by
  unfold meltDropna
  rw [List.mem_flatMap]
  constructor
  · rintro ⟨c, hc, hr⟩
    rcases List.mem_filterMap.mp hr with ⟨br, hbr, hmap⟩
    rcases Option.map_eq_some'.mp hmap with ⟨v, hv, hre⟩
    refine ⟨c, hc, br, hbr, ?_, ?_⟩
    · rw [hv]
      cases hre
      rfl
    · cases hre
      rfl
  · rintro ⟨c, hc, br, hbr, hv, hre⟩
    refine ⟨c, hc, List.mem_filterMap.mpr ⟨br, hbr, ?_⟩⟩
    rw [hv, Option.map_some']
    exact congrArg some hre.symm

theorem statsOf_bucketRowOf (df : List RawRow) (k : Nat) (m : Metric) :
    statsOf (bucketRowOf df k) m = computeStats (metricVals df k m) := by
  cases m <;> rfl

theorem computeStats_single (v : ℚ) :
    computeStats [v] = ⟨some v, some v, some v, none⟩ := by
  simp [computeStats, listMean, List.min?, List.max?]

theorem aggregRows_eq_bucketRowOf {df : List RawRow} {br : BucketRow} {k : Nat}
    (h : br ∈ aggregRows df) (hs : br.bucket_start = bucketWidth * k) :
    br = bucketRowOf df k := by
  rcases mem_aggregRows.mp h with ⟨k', _, hbr, _⟩
  have hk : bucketWidth * k' = bucketWidth * k := by
    rw [← hs, ← hbr]
    rfl
  have : k' = k := by
    have hw : (0 : Nat) < bucketWidth := by decide
    exact Nat.eq_of_mul_eq_mul_left hw hk
  rw [← hbr, this]

theorem std_column {c : String × (BucketRow → Option ℚ)} (hc : c ∈ meltColumns)
    {m : Metric} (hn : c.1 = stdSignalName m) (br : BucketRow) :
    c.2 br = (statsOf br m).std := by
  simp only [meltColumns, List.mem_cons, List.not_mem_nil, or_false] at hc
  cases m <;>
    rcases hc with rfl | rfl | rfl | rfl | rfl | rfl | rfl | rfl <;>
      first
        | exact absurd hn (by decide)
        | rfl

theorem resolveRows_nil (rows : List NormalizedRow) : resolveRows [] rows = [] := by
  simp [resolveRows, lookupSignal, List.find?]

theorem aggregRows_singleKey {df : List RawRow} {k : Nat} (h : keysOf df = {k})
    (h2 : rowAllNone (bucketRowOf df k) = false) :
    aggregRows df = [bucketRowOf df k] := by
  unfold aggregRows
  rw [h, Finset.sort_singleton]
  simp [h2]

theorem chunksOf_nil (B : Nat) : chunksOf B [] = [] := by
  rw [chunksOf]
  simp

theorem process_date_resolved_nil (raw : List RawRow) (reg : SignalRegistry)
    (iF : Option String) (h : raw ≠ [])
    (h2 : resolveRows reg (transform_data raw) = []) :
    process_date (.ok raw) (.ok reg) iF =
      ⟨.success, raw.length, 0, (transform_data raw).length / 8, none⟩ := by
  unfold process_date load_data
  by_cases hl : transform_data raw = [] <;>
    simp [h, hl, h2]

theorem process_date_ok_none (raw : List RawRow) (reg : SignalRegistry)
    (h : raw ≠ []) :
    process_date (.ok raw) (.ok reg) none =
      ⟨.success, raw.length,
        ((chunksOf batchSize (resolveRows reg (transform_data raw))).map List.length).sum,
        (transform_data raw).length / 8, none⟩ := by
  unfold process_date load_data
  by_cases hl : transform_data raw = []
  · simp [h, hl, resolveRows, chunksOf_nil]
  · by_cases hr : resolveRows reg (transform_data raw) = [] <;>
      simp [h, hl, hr, chunksOf_nil]

/-! ## Claim theorems -/

/-- C5: for every bucket containing exactly one sample of a metric, the
aggregator yields mean = min = max = that sample's value and an undefined
stddev, and the normalized output contains zero rows for that bucket's
stddev signal (undefined values never pass the normalizer). -/
theorem c5_single_sample_bucket (df : List RawRow) (k : Nat) (m : Metric) (v : ℚ)
    (h : metricVals df k m = [v]) :
    (∀ br ∈ aggregRows df, br.bucket_start = bucketWidth * k →
      statsOf br m = ⟨some v, some v, some v, none⟩) ∧
    (∀ r ∈ transform_data df, r.signal_name = stdSignalName m →
      r.timestamp ≠ bucketWidth * k) := by
  constructor
  · intro br hbr hs
    rw [aggregRows_eq_bucketRowOf hbr hs, statsOf_bucketRowOf, h, computeStats_single]
  · intro r hr hname hts
    rcases mem_meltDropna.mp hr with ⟨c, hc, br, hbr, hval, hre⟩
    have htsr : r.timestamp = br.bucket_start := by rw [hre]
    have hname' : c.1 = stdSignalName m := by
      rw [hre] at hname
      exact hname
    have hbs : br.bucket_start = bucketWidth * k := by
      rw [← htsr]
      exact hts
    have hbr' : br = bucketRowOf df k := aggregRows_eq_bucketRowOf hbr hbs
    have hstd : c.2 br = (statsOf br m).std := std_column hc hname' br
    rw [hstd, hbr', statsOf_bucketRowOf, h, computeStats_single] at hval
    simp at hval

/-- C1 (amended): in the Dagster-asset orchestration path, a partition run
with non-empty raw input whose resolved load stream is empty yields a result
with status `no_valid_data` and `records_inserted = 0` (the standalone
`ETLProcessor.process_date` path instead reports `success` with
`records_inserted = 0`; see the counterexample). -/
theorem c1_no_valid_data :
    ∀ (raw : List RawRow) (reg : SignalRegistry) (iF : Option String),
      raw ≠ [] → resolveRows reg (meltDropna (aggregRows raw)) = [] →
      processed_sensor_data (.ok raw) (.ok reg) iF =
        ⟨.no_valid_data, raw.length, 0, 0, none⟩ := by
  intro raw reg iF h h2
  unfold processed_sensor_data
  simp [h, h2]

/-- Witness for C1 at a concrete input: one raw row, empty registry. -/
theorem c1_witness :
    processed_sensor_data (.ok [⟨0, some 5, some 2⟩]) (.ok []) none =
      ⟨.no_valid_data, 1, 0, 0, none⟩ :=
  c1_no_valid_data _ _ none (by decide) (resolveRows_nil _)

/-- Counterexample to C1 as stated: in the `ETLProcessor.process_date` path,
a non-empty raw input all of whose generated signal names are unresolved
(empty registry) produces status `success` — not `no_valid_data` — with
`records_inserted = 0`. -/
theorem c1_counterexample :
    ([⟨0, some 5, some 2⟩] : List RawRow) ≠ [] ∧
    resolveRows [] (transform_data [⟨0, some 5, some 2⟩]) = [] ∧
    (process_date (.ok [⟨0, some 5, some 2⟩]) (.ok []) none).status = Status.success ∧
    (process_date (.ok [⟨0, some 5, some 2⟩]) (.ok []) none).records_inserted = 0 := by
  have h0 : ([⟨0, some 5, some 2⟩] : List RawRow) ≠ [] := by decide
  have h2 := resolveRows_nil (transform_data [⟨0, some 5, some 2⟩])
  have he := process_date_resolved_nil [⟨0, some 5, some 2⟩] [] none h0 h2
  rw [he]
  exact ⟨h0, h2, rfl, rfl⟩

/-- C4 (amended): in the Dagster-asset orchestration path, every successful
partition run reports `intervals_processed` equal to the number of distinct
10-minute buckets holding at least one sample of some metric, independent of
the undefined-value filter (the standalone `ETLProcessor.process_date` path
instead reports `len(long rows) / 8`; see the counterexample). -/
theorem c4_buckets_processed :
    ∀ (raw : List RawRow) (reg : SignalRegistry),
      raw ≠ [] → resolveRows reg (meltDropna (aggregRows raw)) ≠ [] →
      (processed_sensor_data (.ok raw) (.ok reg) none).status = Status.success ∧
      (processed_sensor_data (.ok raw) (.ok reg) none).intervals_processed =
        nonemptyBucketCount raw := by
  intro raw reg h h2
  unfold processed_sensor_data
  simp [h, h2, aggregRows_length]

/-- Witness for C4 at a concrete input with the seed registry. -/
theorem c4_witness :
    (processed_sensor_data (.ok [⟨0, some 5, some 2⟩]) (.ok seedRegistry)
      none).intervals_processed = nonemptyBucketCount [⟨0, some 5, some 2⟩] :=
  (c4_buckets_processed _ seedRegistry (by decide)
    (by rw [aggregRows_singleKey (k := 0) (by decide) (by decide)]; decide)).2

/-- Counterexample to C4 as stated: in the `ETLProcessor.process_date` path a
successful run over one raw sample has one non-empty bucket but reports
`intervals_processed = 6 / 8 = 0`, because the count is derived from the
number of surviving normalized rows. -/
theorem c4_counterexample :
    (process_date (.ok [⟨0, some 5, some 2⟩]) (.ok seedRegistry) none).status =
      Status.success ∧
    (process_date (.ok [⟨0, some 5, some 2⟩]) (.ok seedRegistry)
      none).intervals_processed = 0 ∧
    nonemptyBucketCount [⟨0, some 5, some 2⟩] = 1 := by
  have h0 : ([⟨0, some 5, some 2⟩] : List RawRow) ≠ [] := by decide
  have he := process_date_ok_none [⟨0, some 5, some 2⟩] seedRegistry h0
  have h1 : aggregRows [⟨0, some 5, some 2⟩] =
      [bucketRowOf [⟨0, some 5, some 2⟩] 0] :=
    aggregRows_singleKey (k := 0) (by decide) (by decide)
  have hlen : (transform_data [⟨0, some 5, some 2⟩]).length = 6 := by
    rw [transform_data, h1]
    decide
  rw [he]
  refine ⟨rfl, ?_, by decide⟩
  simp [hlen]

/-- C6: for every partition whose extraction returns an empty sample
sequence, both orchestrators return status `no_data` with
`records_inserted = 0`, and no downstream stage runs: the result is
independent of the registry and of any loader fault. -/
theorem c6_empty_extraction :
    ∀ (regRes : Except String SignalRegistry) (iF : Option String),
      process_date (.ok []) regRes iF = ⟨.no_data, 0, 0, 0, none⟩ ∧
      processed_sensor_data (.ok []) regRes iF = ⟨.no_data, 0, 0, 0, none⟩ :=
  fun _ _ => ⟨rfl, rfl⟩

/-- Witness for C5 at a concrete one-sample input. -/
theorem c5_witness :
    statsOf (bucketRowOf [⟨0, some 5, none⟩] 0) .wind_speed =
      ⟨some 5, some 5, some 5, none⟩ :=
  (c5_single_sample_bucket [⟨0, some 5, none⟩] 0 .wind_speed 5 (by decide)).1
    (bucketRowOf [⟨0, some 5, none⟩] 0)
    (by rw [aggregRows_singleKey (k := 0) (by decide) (by decide)]; exact List.mem_singleton_self _)
    (by decide)

/-- C7: every fault raised in a pipeline stage (extraction, registry fetch
during resolution, batch insert during load) is caught by
`ETLProcessor.process_date` and becomes a result with status `error`
carrying the fault description — the fault never escapes — and the CLI entry
point exits 1 on an `error` result and 0 on `success` or `no_data`. -/
theorem c7_fault_handling :
    (∀ (e : String) (regRes : Except String SignalRegistry) (iF : Option String),
      process_date (.error e) regRes iF = ⟨.error, 0, 0, 0, some e⟩) ∧
    (∀ (raw : List RawRow) (e : String) (iF : Option String),
      raw ≠ [] → transform_data raw ≠ [] →
      process_date (.ok raw) (.error e) iF = ⟨.error, 0, 0, 0, some e⟩) ∧
    (∀ (raw : List RawRow) (reg : SignalRegistry) (e : String),
      raw ≠ [] → resolveRows reg (transform_data raw) ≠ [] →
      process_date (.ok raw) (.ok reg) (some e) = ⟨.error, 0, 0, 0, some e⟩) ∧
    (∀ r : PartitionResult,
      (r.status = .error → mainExitCode r = 1) ∧
      ((r.status = .success ∨ r.status = .no_data) → mainExitCode r = 0)) := by
  refine ⟨fun e _ _ => rfl, ?_, ?_, ?_⟩
  · intro raw e iF h hl
    unfold process_date load_data
    simp [h, hl]
  · intro raw reg e h hres
    unfold process_date load_data
    by_cases hl : transform_data raw = []
    · exact absurd (by rw [hl]; rfl) hres
    · simp [h, hl, hres]
  · intro r
    unfold mainExitCode
    cases hs : r.status <;> simp [hs]

/-- Witness for C7: each fault site at a concrete input, plus the exit
codes. -/
theorem c7_witness :
    process_date (.error "boom") (.ok []) none = ⟨.error, 0, 0, 0, some "boom"⟩ ∧
    process_date (.ok [⟨0, some 5, some 2⟩]) (.error "db down") none =
      ⟨.error, 0, 0, 0, some "db down"⟩ ∧
    process_date (.ok [⟨0, some 5, some 2⟩]) (.ok seedRegistry) (some "insert failed") =
      ⟨.error, 0, 0, 0, some "insert failed"⟩ ∧
    mainExitCode ⟨.error, 0, 0, 0, some "boom"⟩ = 1 ∧
    mainExitCode ⟨.no_data, 0, 0, 0, none⟩ = 0 := by
  have h1 : aggregRows [⟨0, some 5, some 2⟩] =
      [bucketRowOf [⟨0, some 5, some 2⟩] 0] :=
    aggregRows_singleKey (k := 0) (by decide) (by decide)
  refine ⟨c7_fault_handling.1 "boom" (.ok []) none,
    c7_fault_handling.2.1 _ "db down" none (by decide)
      (by rw [transform_data, h1]; decide),
    c7_fault_handling.2.2.1 _ seedRegistry "insert failed" (by decide)
      (by rw [transform_data, h1]; decide),
    (c7_fault_handling.2.2.2 _).1 rfl,
    (c7_fault_handling.2.2.2 _).2 (Or.inr rfl)⟩

theorem chunksOf_flatten {B : Nat} (hB : 0 < B) :
    ∀ l : List LoadRecord, (chunksOf B l).flatten = l := by
  have key : ∀ (n : Nat) (l : List LoadRecord), l.length ≤ n →
      (chunksOf B l).flatten = l := by
    intro n
    induction n with
    | zero =>
      intro l hl
      have : l = [] := List.eq_nil_of_length_eq_zero (Nat.le_zero.mp hl)
      subst this
      rw [chunksOf_nil]
      rfl
    | succ n ih =>
      intro l hl
      by_cases he : l = []
      · subst he
        rw [chunksOf_nil]
        rfl
      · rw [chunksOf]
        have hcond : ¬(B = 0 ∨ l = []) := by
          push_neg
          exact ⟨Nat.pos_iff_ne_zero.mp hB, he⟩
        rw [dif_neg hcond, List.flatten_cons]
        rw [ih (l.drop B) ?_, List.take_append_drop]
        have hpos : 0 < l.length := List.length_pos.mpr he
        rw [List.length_drop]
        omega
  exact fun l => key l.length l le_rfl

theorem chunksOf_count {B : Nat} (hB : 0 < B) :
    ∀ l : List LoadRecord, (chunksOf B l).length = (l.length + B - 1) / B := by
  have key : ∀ (n : Nat) (l : List LoadRecord), l.length ≤ n →
      (chunksOf B l).length = (l.length + B - 1) / B := by
    intro n
    induction n with
    | zero =>
      intro l hl
      have : l = [] := List.eq_nil_of_length_eq_zero (Nat.le_zero.mp hl)
      subst this
      rw [chunksOf_nil]
      simp [Nat.div_eq_of_lt (Nat.sub_lt hB Nat.one_pos)]
    | succ n ih =>
      intro l hl
      by_cases he : l = []
      · subst he
        rw [chunksOf_nil]
        simp [Nat.div_eq_of_lt (Nat.sub_lt hB Nat.one_pos)]
      · rw [chunksOf]
        have hcond : ¬(B = 0 ∨ l = []) := by
          push_neg
          exact ⟨Nat.pos_iff_ne_zero.mp hB, he⟩
        rw [dif_neg hcond, List.length_cons]
        have hpos : 0 < l.length := List.length_pos.mpr he
        rw [ih (l.drop B) (by rw [List.length_drop]; omega), List.length_drop]
        rcases le_or_lt l.length B with hle | hlt
        · have hz : l.length - B = 0 := Nat.sub_eq_zero_of_le hle
          rw [hz]
          have hr : (0 + B - 1) / B = 0 :=
            Nat.div_eq_of_lt (by omega)
          rw [hr]
          have : (l.length + B - 1) / B = 1 :=
            Nat.div_eq_of_lt_le (by omega) (by omega)
          omega
        · have harith : l.length + B - 1 = (l.length - B + B - 1) + B := by omega
          rw [harith, Nat.add_div_right _ hB]
  exact fun l => key l.length l le_rfl

/-- C9: for every resolved load stream and every positive batch size `B`,
the no-failure loader persists exactly the input rows (the concatenation of
the issued batches is the stream, so the reported insert count is the stream
length) and issues exactly ⌈N/B⌉ batches; the totals are independent of
`B`. -/
theorem c9_loader_round_trip :
    ∀ (records : List LoadRecord) (B : Nat), 0 < B →
      (chunksOf B records).flatten = records ∧
      ((chunksOf B records).map List.length).sum = records.length ∧
      (chunksOf B records).length = (records.length + B - 1) / B := by
  intro records B hB
  refine ⟨chunksOf_flatten hB records, ?_, chunksOf_count hB records⟩
  calc ((chunksOf B records).map List.length).sum
      = (chunksOf B records).flatten.length := (List.length_flatten _).symm
    _ = records.length := by rw [chunksOf_flatten hB records]

/-- Witness for C9: 2500 resolved rows at batch size 1000 persist all 2500
rows in exactly 3 batches. -/
theorem c9_witness :
    (chunksOf 1000 (List.replicate 2500 ⟨0, 1, 0⟩)).flatten =
      List.replicate 2500 ⟨0, 1, 0⟩ ∧
    ((chunksOf 1000 (List.replicate 2500 ⟨0, 1, 0⟩)).map List.length).sum = 2500 ∧
    (chunksOf 1000 (List.replicate 2500 ⟨0, 1, 0⟩)).length = 3 := by
  have h := c9_loader_round_trip (List.replicate 2500 ⟨0, 1, 0⟩) 1000 (by decide)
  refine ⟨h.1, ?_, ?_⟩
  · rw [h.2.1, List.length_replicate]
  · rw [h.2.2, List.length_replicate]

/-- C10: registry provisioning is idempotent: a non-empty signal table is
left unchanged, re-running equals running once, and provisioning never
introduces a duplicate signal name. -/
theorem c10_provisioning_idempotent :
    (∀ t : List SignalDef,
      insert_initial_signals (insert_initial_signals t) = insert_initial_signals t) ∧
    (∀ t : List SignalDef, t ≠ [] → insert_initial_signals t = t) ∧
    (∀ t : List SignalDef, (t.map SignalDef.name).Nodup →
      ((insert_initial_signals t).map SignalDef.name).Nodup) := by
  have hne : ∀ t : List SignalDef, t ≠ [] → insert_initial_signals t = t := by
    intro t h
    unfold insert_initial_signals
    rw [if_pos (List.length_pos.mpr h)]
  refine ⟨?_, hne, ?_⟩
  · intro t
    by_cases h : t = []
    · subst h
      apply hne
      decide
    · rw [hne t h, hne t h]
  · intro t hnd
    by_cases h : t = []
    · subst h
      decide
    · rw [hne t h]
      exact hnd

/-- Witness for C10 at concrete table states. -/
theorem c10_witness :
    insert_initial_signals (insert_initial_signals []) = insert_initial_signals [] ∧
    insert_initial_signals [⟨"wind_speed_mean", ""⟩] = [⟨"wind_speed_mean", ""⟩] ∧
    ((insert_initial_signals []).map SignalDef.name).Nodup :=
  ⟨c10_provisioning_idempotent.1 [],
    c10_provisioning_idempotent.2.1 _ (by decide),
    c10_provisioning_idempotent.2.2 [] (by decide)⟩

/-- C3 (amended): the source reader's time filter is a closed range, not a
half-open one: a row is returned exactly when it is stored and
start ≤ timestamp ∧ timestamp ≤ end — in particular a sample at exactly the
end instant (midnight of the following day for a day partition) is
included, not excluded. -/
theorem c3_closed_range :
    ∀ (s e : Nat) (tbl : List FonteRow) (r : FonteRow),
      r ∈ get_data_with_filters (some s) (some e) tbl ↔
        (r ∈ tbl ∧ s ≤ r.timestamp ∧ r.timestamp ≤ e) := by
  intro s e tbl r
  unfold get_data_with_filters
  rw [(List.mergeSort_perm _ _).mem_iff, List.mem_filter]
  simp [inRange, and_assoc]

/-- Counterexample to C3 as stated: for the day-partition window the sample
at exactly the end instant (the following midnight) is returned by the
filter, so the range is not half-open. -/
theorem c3_counterexample :
    (⟨(extractWindow 0).2, some 1, none, none⟩ : FonteRow) ∈
      get_data_with_filters (some (extractWindow 0).1) (some (extractWindow 0).2)
        [⟨(extractWindow 0).2, some 1, none, none⟩] := by
  unfold get_data_with_filters
  rw [(List.mergeSort_perm _ _).mem_iff, List.mem_filter]
  refine ⟨List.mem_singleton_self _, by decide⟩

/-- C8: aggregation is deterministic and anchored to absolute time: the
aggregator's output is invariant under any reordering of the raw sample
list, and every emitted bucket starts at an absolute multiple of the
10-minute width, independent of the first sample's timestamp. -/
theorem c8_aggregation_deterministic :
    (∀ df df' : List RawRow, df.Perm df' → aggregRows df = aggregRows df') ∧
    (∀ (df : List RawRow) (br : BucketRow), br ∈ aggregRows df →
      br.bucket_start % bucketWidth = 0) := by
  constructor
  · intro df df' p
    exact aggregRows_perm p
  · intro df br h
    rcases mem_aggregRows.mp h with ⟨k, _, hbr, _⟩
    rw [← hbr]
    show (bucketWidth * k) % bucketWidth = 0
    exact Nat.mul_mod_right _ _

theorem computeStats_isSome {vs : List ℚ} (h : vs ≠ []) :
    (computeStats vs).mean.isSome = true ∧ (computeStats vs).min.isSome = true ∧
      (computeStats vs).max.isSome = true := by
  refine ⟨by simp [computeStats, listMean, h], ?_, ?_⟩
  · show vs.min?.isSome = true
    rw [Option.isSome_iff_ne_none]
    intro he
    exact h (List.min?_eq_none_iff.mp he)
  · show vs.max?.isSome = true
    rw [Option.isSome_iff_ne_none]
    intro he
    exact h (List.max?_eq_none_iff.mp he)

theorem computeStats_std_isSome {vs : List ℚ} (h : 2 ≤ vs.length) :
    (computeStats vs).std.isSome = true := by
  simp [computeStats, h]

theorem bucketRowOf_mem_aggregRows {df : List RawRow} {k : Nat}
    (h : metricVals df k .wind_speed ≠ [] ∨ metricVals df k .power ≠ []) :
    bucketRowOf df k ∈ aggregRows df := by
  rw [mem_aggregRows]
  refine ⟨k, ?_, rfl, (rowAllNone_bucketRowOf df k).mpr h⟩
  rcases h with h | h <;>
  · rcases metricVals_ne_nil.mp h with ⟨r, hr, hk, _⟩
    exact mem_keysOf.mpr ⟨r, hr, hk⟩

theorem name_mem_signalNames {df : List RawRow} {c : String × (BucketRow → Option ℚ)}
    (hc : c ∈ meltColumns) {k : Nat} (hmem : bucketRowOf df k ∈ aggregRows df)
    (hs : (c.2 (bucketRowOf df k)).isSome = true) : c.1 ∈ signalNames df := by
  unfold signalNames
  rw [List.mem_toFinset, List.mem_map]
  rcases Option.isSome_iff_exists.mp hs with ⟨v, hv⟩
  refine ⟨⟨(bucketRowOf df k).bucket_start, c.1, v⟩, ?_, rfl⟩
  unfold transform_data
  rw [mem_meltDropna]
  exact ⟨c, hc, bucketRowOf df k, hmem, hv, rfl⟩

/-- C2 (amended): every signal name produced by the normalizer lies in the
closed enumeration {wind_speed, power} × {mean, min, max, std}, each formed
as the metric name suffixed by the statistic — the stddev statistic's signal
names are `wind_speed_std` and `power_std`, not `*_stddev` — and whenever
each metric has some bucket holding at least two samples, all eight names
are produced. -/
theorem c2_signal_names :
    (∀ df : List RawRow, signalNames df ⊆ allSignalNames) ∧
    (∀ df : List RawRow,
      (∀ m : Metric, ∃ k, 2 ≤ (metricVals df k m).length) →
      signalNames df = allSignalNames) := by
  have hsub : ∀ df : List RawRow, signalNames df ⊆ allSignalNames := by
    intro df n hn
    unfold signalNames at hn
    rw [List.mem_toFinset, List.mem_map] at hn
    rcases hn with ⟨r, hr, rfl⟩
    unfold transform_data at hr
    rw [mem_meltDropna] at hr
    rcases hr with ⟨c, hc, br, _, _, hre⟩
    have hn' : r.signal_name = c.1 := by rw [hre]
    rw [hn']
    unfold allSignalNames
    rw [List.mem_toFinset, List.mem_map]
    exact ⟨c, hc, rfl⟩
  refine ⟨hsub, ?_⟩
  intro df h
  refine Finset.Subset.antisymm (hsub df) ?_
  intro n hn
  rcases h .wind_speed with ⟨kw, hkw⟩
  rcases h .power with ⟨kp, hkp⟩
  have hwsne : metricVals df kw .wind_speed ≠ [] := by
    intro e
    rw [e] at hkw
    exact absurd hkw (by decide)
  have hpwne : metricVals df kp .power ≠ [] := by
    intro e
    rw [e] at hkp
    exact absurd hkp (by decide)
  have hmemw : bucketRowOf df kw ∈ aggregRows df :=
    bucketRowOf_mem_aggregRows (Or.inl hwsne)
  have hmemp : bucketRowOf df kp ∈ aggregRows df :=
    bucketRowOf_mem_aggregRows (Or.inr hpwne)
  have hw := computeStats_isSome hwsne
  have hwstd := computeStats_std_isSome hkw
  have hp := computeStats_isSome hpwne
  have hpstd := computeStats_std_isSome hkp
  simp only [allSignalNames, meltColumns, List.map_cons, List.map_nil,
    List.mem_toFinset, List.mem_cons, List.not_mem_nil, or_false] at hn
  rcases hn with rfl | rfl | rfl | rfl | rfl | rfl | rfl | rfl
  · exact name_mem_signalNames (c := ("wind_speed_mean", fun br => br.wind_speed.mean))
      (by unfold meltColumns; exact .head _) hmemw hw.1
  · exact name_mem_signalNames (c := ("wind_speed_min", fun br => br.wind_speed.min))
      (by unfold meltColumns; exact .tail _ (.head _)) hmemw hw.2.1
  · exact name_mem_signalNames (c := ("wind_speed_max", fun br => br.wind_speed.max))
      (by unfold meltColumns; exact .tail _ (.tail _ (.head _))) hmemw hw.2.2
  · exact name_mem_signalNames (c := ("wind_speed_std", fun br => br.wind_speed.std))
      (by unfold meltColumns; exact .tail _ (.tail _ (.tail _ (.head _)))) hmemw hwstd
  · exact name_mem_signalNames (c := ("power_mean", fun br => br.power.mean))
      (by unfold meltColumns
          exact .tail _ (.tail _ (.tail _ (.tail _ (.head _))))) hmemp hp.1
  · exact name_mem_signalNames (c := ("power_min", fun br => br.power.min))
      (by unfold meltColumns
          exact .tail _ (.tail _ (.tail _ (.tail _ (.tail _ (.head _)))))) hmemp hp.2.1
  · exact name_mem_signalNames (c := ("power_max", fun br => br.power.max))
      (by unfold meltColumns
          exact .tail _ (.tail _ (.tail _ (.tail _ (.tail _ (.tail _ (.head _))))))) hmemp hp.2.2
  · exact name_mem_signalNames (c := ("power_std", fun br => br.power.std))
      (by unfold meltColumns
          exact .tail _ (.tail _ (.tail _ (.tail _ (.tail _ (.tail _ (.tail _ (.head _)))))))) hmemp hpstd

/-- Witness for C2 at an input in which both metrics have a two-sample
bucket: all eight names are produced. -/
theorem c2_witness :
    signalNames [⟨0, some 1, some 2⟩, ⟨60, some 3, some 4⟩] = allSignalNames :=
  c2_signal_names.2 _ (fun m => ⟨0, by cases m <;> decide⟩)

/-- Counterexample to C2 as stated: the stddev signal produced for
wind_speed is named `wind_speed_std`; no `wind_speed_stddev` row is ever
generated. -/
theorem c2_counterexample :
    "wind_speed_std" ∈ signalNames [⟨0, some 5, none⟩, ⟨60, some 6, none⟩] ∧
    "wind_speed_stddev" ∉ signalNames [⟨0, some 5, none⟩, ⟨60, some 6, none⟩] := by
  have h1 : aggregRows [⟨0, some 5, none⟩, ⟨60, some 6, none⟩] =
      [bucketRowOf [⟨0, some 5, none⟩, ⟨60, some 6, none⟩] 0] :=
    aggregRows_singleKey (k := 0) (by decide) (by decide)
  unfold signalNames transform_data
  rw [h1]
  exact ⟨by decide, by decide⟩

/-- Witness for C8: a concrete two-sample reordering and a concrete emitted
bucket. -/
theorem c8_witness :
    aggregRows [⟨0, some 5, none⟩, ⟨700, none, some 2⟩] =
      aggregRows [⟨700, none, some 2⟩, ⟨0, some 5, none⟩] ∧
    (bucketRowOf [⟨0, some 5, none⟩] 0).bucket_start % bucketWidth = 0 :=
  ⟨c8_aggregation_deterministic.1 _ _ (List.Perm.swap _ _ _),
    c8_aggregation_deterministic.2 [⟨0, some 5, none⟩] _
      (by rw [aggregRows_singleKey (k := 0) (by decide) (by decide)]
          exact List.mem_singleton_self _)⟩

end Delfos
